import Mathlib

/-
Verification of the L3GOS datamanager
(src/l3gos/build/lib/l3gos/data/L3GOS_datamanager.py).

The embedding below mirrors, in order:
  * the camera / frame / cache data model (DistParams, Camera, Frame, Roi),
  * the camera-model adapter and per-frame rectification done inside
    `cache_images` (extended_distortion, pinhole_newK_roi, rectify_frame),
  * the cache builder with its residency placement and the 500-frame
    policy override done in `__init__` (cache_split, place_frame,
    place_split, cache_images, effective_policy, setup_caches),
  * the sampling scheduler and ingestion operations on the manager state
    (next_train, next_eval, next_eval_image, fixed_indices_eval_dataloader,
    add_image, process_image), plus drivers (run_train, run_eval) that
    iterate the per-step operations.

External libraries (cv2, numpy matrix values, torch devices) have opaque
numeric behaviour; they enter the embedding as parameters (the Cv2
structure) or as small enumerations (Residency). numpy array slicing,
which is language-level indexing in the source, is embedded concretely
(cropRect). Failures that surface as Python exceptions (IndexError on
pop / indexing, NotImplementedError for unsupported camera models) are
embedded as Option / Except values.
-/

namespace L3GOS

/-- Projection type of a camera, after nerfstudio's CameraType enum.
The source compares camera_type.item() against PERSPECTIVE and FISHEYE;
`equirectangular` stands for every other enum value. -/
inductive CamType where
  | perspective
  | fisheye
  | equirectangular
deriving DecidableEq

/-- Residency of a cached tensor: plain host memory, pinned host memory
(after .pin_memory()), or accelerator memory (after .to(device)). -/
inductive Residency where
  | host
  | pinnedHost
  | device
deriving DecidableEq

/-- Cache policy, after the config literal "no-cache" | "cpu" | "gpu". -/
inductive CachePolicy where
  | noCache
  | cpu
  | gpu
deriving DecidableEq

/-- Distortion-coefficient vector as stored on a nerfstudio camera: six
scalars, addressed positionally (the source reads distortion_params[0]
through distortion_params[5]). -/
structure DistParams (α : Type) where
  d0 : α
  d1 : α
  d2 : α
  d3 : α
  d4 : α
  d5 : α
deriving DecidableEq

/-- An image is a row-major pixel grid; numpy slicing img[y:y+h, x:x+w]
becomes drop/take on rows and on each row. -/
abbrev Image (Pix : Type) := List (List Pix)

/-- A data dict of the dataset / cache: the "image" entry plus the
optional "mask" and "depth_image" entries, together with the memory
residency of the image and mask tensors. -/
structure Frame (Pix : Type) where
  image : Image Pix
  mask : Option (Image Pix)
  depth : Option (Image Pix)
  imageRes : Residency
  maskRes : Residency
deriving DecidableEq

/-- A nerfstudio camera record: projection type, distortion vector,
intrinsics, output size, and the metadata "cam_idx" entry that
next_train writes. -/
structure Camera (α : Type) where
  camera_type : CamType
  distortion_params : DistParams α
  fx : α
  fy : α
  cx : α
  cy : α
  width : Nat
  height : Nat
  metadata_cam_idx : Option Nat
deriving DecidableEq

/-- Valid-pixel rectangle (x, y, w, h) returned by
cv2.getOptimalNewCameraMatrix. -/
structure Roi where
  x : Nat
  y : Nat
  w : Nat
  h : Nat
deriving DecidableEq

/-- image.shape[1]: the number of columns of the first row. -/
def imgW {Pix : Type} (img : Image Pix) : Nat := (img.headD []).length

/-- image.shape[0]: the number of rows. -/
def imgH {Pix : Type} (img : Image Pix) : Nat := img.length

/-- numpy slice img[r.y : r.y + r.h, r.x : r.x + r.w]. -/
def cropRect {Pix : Type} (img : Image Pix) (r : Roi) : Image Pix :=
  ((img.drop r.y).take r.h).map fun row => (row.drop r.x).take r.w

/-- The np.array([d[0], d[1], d[4], d[5], d[2], d[3], 0, 0]) rearrangement
the source builds from the stored six-coefficient vector before calling
the cv2 pinhole undistortion entry points. -/
def extended_distortion {α : Type} [Zero α] (d : DistParams α) : List α :=
  [d.d0, d.d1, d.d4, d.d5, d.d2, d.d3, 0, 0]

/-- The NotImplementedError message raised for unsupported camera models. -/
def unsupported_msg : String := "Only perspective and fisheye cameras are supported"

/-- Signatures of the external cv2 / numpy / nerfstudio primitives the
cache builder calls. Their numeric behaviour is opaque to this
development, so they are parameters of the embedding: κ is the type of
3x3 intrinsic matrices, μ the type of the fisheye remap table pair.
mkIntrinsics is camera.get_intrinsics_matrices(); k00/k11/k02/k12 are the
numpy reads K[0,0], K[1,1], K[0,2], K[1,2]; undistortNoNewK is
cv2.undistort(img, K, dist, None, None), i.e. without a new camera
matrix. -/
structure Cv2 (α κ μ Pix : Type) where
  mkIntrinsics : α → α → α → α → κ
  k00 : κ → α
  k11 : κ → α
  k02 : κ → α
  k12 : κ → α
  getOptimalNewCameraMatrix : κ → List α → Nat × Nat → κ × Roi
  undistort : Image Pix → κ → List α → κ → Image Pix
  undistortNoNewK : Image Pix → κ → List α → Image Pix
  fisheyeEstimateNewCameraMatrixForUndistortRectify : κ → List α → Nat × Nat → κ
  fisheyeInitUndistortRectifyMap : κ → List α → κ → Nat × Nat → μ
  remap : Image Pix → μ → Image Pix
  fisheyeUndistortImage : Image Pix → κ → List α → Image Pix

/-- Camera model adapter for the pinhole path: the call
cv2.getOptimalNewCameraMatrix(K, dist8, (image.shape[1], image.shape[0]), 0)
on a camera's intrinsics and extended distortion vector, returning the
new camera matrix and the valid-pixel rectangle. -/
def pinhole_newK_roi {α κ μ Pix : Type} [Zero α] (cv : Cv2 α κ μ Pix)
    (camera : Camera α) (img : Image Pix) : κ × Roi :=
  cv.getOptimalNewCameraMatrix (cv.mkIntrinsics camera.fx camera.fy camera.cx camera.cy)
    (extended_distortion camera.distortion_params) (imgW img, imgH img)

/-- One iteration of the per-index loop of cache_images: rectify one
frame and update its camera record. Pinhole: undistort with the new
camera matrix, crop image / mask / depth to the roi, then (per the
second mask block of the source, lines 191-199) run the cropped mask
through cv2.undistort once more with K = newK. Fisheye: remap the image
with the precomputed maps and run the mask through
cv2.fisheye.undistortImage with the new matrix; no crop. Any other
camera type raises NotImplementedError. -/
def rectify_frame {α κ μ Pix : Type} [Zero α] (cv : Cv2 α κ μ Pix)
    (camera : Camera α) (data : Frame Pix) :
    Except String (Frame Pix × Camera α) :=
  match camera.camera_type with
  | CamType.perspective =>
      let dparams := extended_distortion camera.distortion_params
      let kroi := pinhole_newK_roi cv camera data.image
      let newK := kroi.1
      let roi := kroi.2
      let K := cv.mkIntrinsics camera.fx camera.fy camera.cx camera.cy
      let image1 := cropRect (cv.undistort data.image K dparams newK) roi
      let mask1 := (data.mask.map fun m => cropRect m roi).map fun m =>
        cv.undistortNoNewK m newK dparams
      let depth1 := data.depth.map fun d => cropRect d roi
      Except.ok
        ({ data with image := image1, mask := mask1, depth := depth1 },
         { camera with width := roi.w, height := roi.h,
                       fx := cv.k00 newK, fy := cv.k11 newK,
                       cx := cv.k02 newK, cy := cv.k12 newK })
  | CamType.fisheye =>
      let dparams := [camera.distortion_params.d0, camera.distortion_params.d1,
                      camera.distortion_params.d2, camera.distortion_params.d3]
      let K := cv.mkIntrinsics camera.fx camera.fy camera.cx camera.cy
      let newK := cv.fisheyeEstimateNewCameraMatrixForUndistortRectify K dparams
        (imgW data.image, imgH data.image)
      let maps := cv.fisheyeInitUndistortRectifyMap K dparams newK
        (imgW data.image, imgH data.image)
      let image1 := cv.remap data.image maps
      let mask1 := data.mask.map fun m => cv.fisheyeUndistortImage m newK dparams
      Except.ok
        ({ data with image := image1, mask := mask1 },
         { camera with fx := cv.k00 newK, fy := cv.k11 newK,
                       cx := cv.k02 newK, cy := cv.k12 newK })
  | CamType.equirectangular =>
      Except.error unsupported_msg

/-- The full per-split loop of cache_images: rectify every (data, camera)
entry in index order; a raised NotImplementedError aborts the whole pass
with no partial result. -/
def cache_split {α κ μ Pix : Type} [Zero α] (cv : Cv2 α κ μ Pix) :
    List (Frame Pix × Camera α) → Except String (List (Frame Pix × Camera α))
  | [] => Except.ok []
  | e :: rest =>
      match rectify_frame cv e.2 e.1 with
      | Except.error msg => Except.error msg
      | Except.ok r =>
          match cache_split cv rest with
          | Except.error msg => Except.error msg
          | Except.ok rs => Except.ok (r :: rs)

/-- The placement loop at the end of cache_images: with policy "gpu" the
cached image (and mask, if present) is moved to the accelerator,
otherwise its host memory is pinned. -/
def place_frame {Pix : Type} (opt : CachePolicy) (f : Frame Pix) : Frame Pix :=
  if opt = CachePolicy.gpu then
    { f with imageRes := Residency.device,
             maskRes := if f.mask.isSome then Residency.device else f.maskRes }
  else
    { f with imageRes := Residency.pinnedHost,
             maskRes := if f.mask.isSome then Residency.pinnedHost else f.maskRes }

/-- Placement applied to a whole cached split. -/
def place_split {Pix : Type} (opt : CachePolicy) (fs : List (Frame Pix)) : List (Frame Pix) :=
  fs.map (place_frame opt)

/-- cache_images(cache_images_option): rectify the whole train split,
then the whole eval split, then apply residency placement to both; the
rectified camera records are written back to the per-split camera
collections. -/
def cache_images {α κ μ Pix : Type} [Zero α] (cv : Cv2 α κ μ Pix) (opt : CachePolicy)
    (train_entries eval_entries : List (Frame Pix × Camera α)) :
    Except String ((List (Frame Pix) × List (Camera α)) × (List (Frame Pix) × List (Camera α))) :=
  match cache_split cv train_entries with
  | Except.error msg => Except.error msg
  | Except.ok tr =>
      match cache_split cv eval_entries with
      | Except.error msg => Except.error msg
      | Except.ok ev =>
          Except.ok ((place_split opt (tr.map Prod.fst), tr.map Prod.snd),
                     (place_split opt (ev.map Prod.fst), ev.map Prod.snd))

/-- Lines 119-121 of the source: if the train dataset has more than 500
images and the configured policy is "gpu", the policy is silently
overridden to "cpu" before the cache is built. -/
def effective_policy (train_len : Nat) (p : CachePolicy) : CachePolicy :=
  if 500 < train_len ∧ p = CachePolicy.gpu then CachePolicy.cpu else p

/-- The __init__ sequence relevant to caching: apply the 500-frame policy
override, then build both caches with the resulting policy. -/
def setup_caches {α κ μ Pix : Type} [Zero α] (cv : Cv2 α κ μ Pix) (p : CachePolicy)
    (train_entries eval_entries : List (Frame Pix × Camera α)) :
    Except String ((List (Frame Pix) × List (Camera α)) × (List (Frame Pix) × List (Camera α))) :=
  cache_images cv (effective_policy train_entries.length p) train_entries eval_entries

/-- The datamanager state touched by the sampling and ingestion
operations: the train / eval datasets (data dict and camera per index,
kept aligned by the dataset class), the two cached frame lists built by
cache_images, and the two unseen-index worklists. -/
structure MgrState (α Pix : Type) where
  train_dataset : List (Frame Pix × Camera α)
  eval_dataset : List (Frame Pix × Camera α)
  cached_train : List (Frame Pix)
  cached_eval : List (Frame Pix)
  train_unseen_cameras : List Nat
  eval_unseen_cameras : List Nat
deriving DecidableEq

/-- What one next_train call returns (the sampled index, the camera slice
with metadata["cam_idx"] set, the device-resident copy of the cached
data) together with the successor state and whether this call refilled
the worklist. -/
structure TrainStep (α Pix : Type) where
  idx : Nat
  camera : Camera α
  data : Frame Pix
  next : MgrState α Pix
  refilled : Bool
deriving DecidableEq

/-- next_train(step): image_idx = train_unseen_cameras.pop() (the last
element); if the worklist became empty, refill it with
range(len(train_dataset)); return a copy of cached_train[image_idx] with
its image moved to the device, and the camera at image_idx with
metadata["cam_idx"] = image_idx. pop() on an empty worklist or an
out-of-range cache index raises, modelled as none. -/
def next_train {α Pix : Type} (s : MgrState α Pix) : Option (TrainStep α Pix) :=
  match s.train_unseen_cameras.getLast? with
  | none => none
  | some image_idx =>
      let rest := s.train_unseen_cameras.dropLast
      let unseen := if rest.isEmpty then List.range s.train_dataset.length else rest
      match s.cached_train.get? image_idx, s.train_dataset.get? image_idx with
      | some data, some entry =>
          some { idx := image_idx,
                 camera := { entry.2 with metadata_cam_idx := some image_idx },
                 data := { data with imageRes := Residency.device },
                 next := { s with train_unseen_cameras := unseen },
                 refilled := rest.isEmpty }
      | _, _ => none

/-- What one next_eval / next_eval_image call returns, with the successor
state. -/
structure EvalStep (α Pix : Type) where
  idx : Nat
  camera : Camera α
  data : Frame Pix
  next : MgrState α Pix
deriving DecidableEq

/-- next_eval(step): image_idx = eval_unseen_cameras.pop(r) where r is
the value random.randint(0, len(worklist) - 1) produced; if the worklist
became empty, refill it with range(len(eval_dataset)); return a deep
copy of cached_eval[image_idx] with its image moved to the device and
the camera at image_idx. An empty worklist or an out-of-range r or cache
index raises, modelled as none. -/
def next_eval {α Pix : Type} (s : MgrState α Pix) (r : Nat) : Option (EvalStep α Pix) :=
  match s.eval_unseen_cameras.get? r with
  | none => none
  | some image_idx =>
      let rest := s.eval_unseen_cameras.eraseIdx r
      let unseen := if rest.isEmpty then List.range s.eval_dataset.length else rest
      match s.cached_eval.get? image_idx, s.eval_dataset.get? image_idx with
      | some data, some entry =>
          some { idx := image_idx,
                 camera := entry.2,
                 data := { data with imageRes := Residency.device },
                 next := { s with eval_unseen_cameras := unseen } }
      | _, _ => none

/-- next_eval_image(step): transcribed separately from its own source
lines (395-409); the body is the same sampling procedure as next_eval. -/
def next_eval_image {α Pix : Type} (s : MgrState α Pix) (r : Nat) : Option (EvalStep α Pix) :=
  match s.eval_unseen_cameras.get? r with
  | none => none
  | some image_idx =>
      let rest := s.eval_unseen_cameras.eraseIdx r
      let unseen := if rest.isEmpty then List.range s.eval_dataset.length else rest
      match s.cached_eval.get? image_idx, s.eval_dataset.get? image_idx with
      | some data, some entry =>
          some { idx := image_idx,
                 camera := entry.2,
                 data := { data with imageRes := Residency.device },
                 next := { s with eval_unseen_cameras := unseen } }
      | _, _ => none

/-- The loop body of fixed_indices_eval_dataloader applied to one index i
of image_indices: pair the camera at i with the deep-copied cache entry
at i, its image moved to the device. -/
def gather_pairs {α Pix : Type} (s : MgrState α Pix) :
    List Nat → Option (List (Camera α × Frame Pix))
  | [] => some []
  | i :: is => do
      let d ← s.cached_eval.get? i
      let e ← s.eval_dataset.get? i
      let rest ← gather_pairs s is
      some ((e.2, { d with imageRes := Residency.device }) :: rest)

/-- fixed_indices_eval_dataloader: image_indices =
list(range(len(self.eval_unseen_cameras))) — note: the length of the
current eval worklist, not of the eval dataset — zipped with the
deep-copied cache entries and camera slices at those indices. -/
def fixed_indices_eval_dataloader {α Pix : Type} (s : MgrState α Pix) :
    Option (List (Camera α × Frame Pix)) :=
  gather_pairs s (List.range s.eval_unseen_cameras.length)

/-- add_image(img, cam): the method body is pass plus comments; it
performs no state change. -/
def add_image {α Pix : Type} (s : MgrState α Pix) (_img : Image Pix) (_cam : Camera α) :
    MgrState α Pix := s

/-- Modelled from the spec: L3GOSDataset.add_image (the dataset class is
not under src/) appends the new image and its camera as one aligned
dataset entry, and dataset[i] returns the data dict of the i-th image
(for the freshly appended image, a dict holding that image). -/
def dataset_add_image {α Pix : Type} (entries : List (Frame Pix × Camera α))
    (img : Image Pix) (cam : Camera α) : List (Frame Pix × Camera α) :=
  entries ++ [({ image := img, mask := none, depth := none,
                 imageRes := Residency.host, maskRes := Residency.host }, cam)]

/-- process_image(img, cam, clip, dino): add the image to the train
dataset, reset train_unseen_cameras to range(len(train_dataset)) (the
length after the append), then append
train_dataset[len(train_dataset) - 1] to cached_train. The index
len - 1 is always in range because the dataset was just appended to; the
getD default is never reached. -/
def process_image {α Pix : Type} (s : MgrState α Pix) (img : Image Pix) (cam : Camera α) :
    MgrState α Pix :=
  let ds := dataset_add_image s.train_dataset img cam
  let unseen := List.range ds.length
  let data := ((ds.get? (ds.length - 1)).map Prod.fst).getD
    { image := img, mask := none, depth := none,
      imageRes := Residency.host, maskRes := Residency.host }
  { s with train_dataset := ds, train_unseen_cameras := unseen,
           cached_train := s.cached_train ++ [data] }

/-- Driver: n successive next_train calls, collecting the sampled
indices and the per-call refill flags. -/
def run_train {α Pix : Type} : MgrState α Pix → Nat → Option (List Nat × MgrState α Pix × List Bool)
  | s, 0 => some ([], s, [])
  | s, n + 1 =>
      (next_train s).bind fun st =>
        (run_train st.next n).map fun p => (st.idx :: p.1, p.2.1, st.refilled :: p.2.2)

/-- Driver: successive next_eval calls fed by a list of random choices,
collecting the sampled indices. -/
def run_eval {α Pix : Type} : MgrState α Pix → List Nat → Option (List Nat × MgrState α Pix)
  | s, [] => some ([], s)
  | s, r :: rs =>
      (next_eval s r).bind fun st =>
        (run_eval st.next rs).map fun p => (st.idx :: p.1, p.2)

/-- Decidable equality of Except values, needed to evaluate the cache
builder on concrete inputs. -/
instance {ε α : Type} [DecidableEq ε] [DecidableEq α] : DecidableEq (Except ε α) := fun x y =>
  match x, y with
  | Except.ok a, Except.ok b =>
      if h : a = b then isTrue (by rw [h]) else isFalse (fun hc => h (Except.ok.inj hc))
  | Except.error a, Except.error b =>
      if h : a = b then isTrue (by rw [h]) else isFalse (fun hc => h (Except.error.inj hc))
  | Except.ok _, Except.error _ => isFalse (fun hc => Except.noConfusion hc)
  | Except.error _, Except.ok _ => isFalse (fun hc => Except.noConfusion hc)

/-- A concrete frame used by witnesses: a 1x1 image, no mask, no depth. -/
def frame0 : Frame Nat :=
  { image := [[0]], mask := none, depth := none,
    imageRes := Residency.host, maskRes := Residency.host }

/-- A concrete frame with a mask and a depth channel. -/
def frameM : Frame Nat :=
  { image := [[1]], mask := some [[2]], depth := some [[3]],
    imageRes := Residency.host, maskRes := Residency.host }

/-- A concrete pinhole camera with zero distortion. -/
def cam0 : Camera Nat :=
  { camera_type := CamType.perspective, distortion_params := ⟨0, 0, 0, 0, 0, 0⟩,
    fx := 1, fy := 1, cx := 0, cy := 0, width := 1, height := 1,
    metadata_cam_idx := none }

/-- A concrete pinhole camera with nonzero distortion coefficients. -/
def camC : Camera Nat :=
  { cam0 with distortion_params := ⟨1, 2, 3, 4, 5, 6⟩ }

/-- A concrete camera whose projection type is neither pinhole nor
fisheye. -/
def camBad : Camera Nat :=
  { cam0 with camera_type := CamType.equirectangular }

/-- A concrete instantiation of the external cv2 primitives, used to
evaluate the embedding at concrete inputs. Its undistortNoNewK is not
the identity, reflecting that cv2.undistort moves pixels whenever the
distortion coefficients are nonzero. -/
def cvN : Cv2 Nat Unit Unit Nat where
  mkIntrinsics := fun _ _ _ _ => ()
  k00 := fun _ => 0
  k11 := fun _ => 0
  k02 := fun _ => 0
  k12 := fun _ => 0
  getOptimalNewCameraMatrix := fun _ _ _ => ((), ⟨0, 0, 1, 1⟩)
  undistort := fun i _ _ _ => i
  undistortNoNewK := fun _ _ _ => [[7]]
  fisheyeEstimateNewCameraMatrixForUndistortRectify := fun _ _ _ => ()
  fisheyeInitUndistortRectifyMap := fun _ _ _ _ => ()
  remap := fun i _ => i
  fisheyeUndistortImage := fun i _ _ => i

/-- A concrete manager state with two train and two eval images, both
worklists freshly filled. -/
def s2 : MgrState Nat Nat :=
  { train_dataset := [(frame0, cam0), (frame0, cam0)],
    eval_dataset := [(frame0, cam0), (frame0, cam0)],
    cached_train := [frame0, frame0],
    cached_eval := [frame0, frame0],
    train_unseen_cameras := [0, 1],
    eval_unseen_cameras := [0, 1] }

/-- The state s2 after one next_eval call popped index 1: the eval
worklist holds one remaining index. -/
def s2_mid_sweep : MgrState Nat Nat :=
  { s2 with eval_unseen_cameras := [0] }

/-- A concrete train split of 501 frames, above the policy-downgrade
threshold. -/
def trainBig : List (Frame Nat × Camera Nat) := List.replicate 501 (frame0, cam0)

/-
Theorems. Helper lemmas come first, then one theorem per claim (with a
witness theorem wherever the claim theorem carries a hypothesis).
-/

/-- C5. For every pinhole (perspective) camera, the adapter rearranges
the source distortion-coefficient vector into an 8-parameter extended
form reading [k1, k2, p1, p2, k3, k3', 0, 0]: under the source storage
order, the two extra (tangential) terms placed at output positions 2 and
3 come from source indices 4 and 5, the radial tail at output positions
4 and 5 comes from source indices 2 and 3, and the final two entries are
zero. -/
theorem c5_distortion_reorder {α : Type} [Zero α] (d : DistParams α) :
    (extended_distortion d).length = 8 ∧
    (extended_distortion d).get? 0 = some d.d0 ∧
    (extended_distortion d).get? 1 = some d.d1 ∧
    (extended_distortion d).get? 2 = some d.d4 ∧
    (extended_distortion d).get? 3 = some d.d5 ∧
    (extended_distortion d).get? 4 = some d.d2 ∧
    (extended_distortion d).get? 5 = some d.d3 ∧
    (extended_distortion d).get? 6 = some (0 : α) ∧
    (extended_distortion d).get? 7 = some (0 : α) :=
  ⟨rfl, rfl, rfl, rfl, rfl, rfl, rfl, rfl, rfl⟩

/-- C9. next_eval and next_eval_image behave identically: applied to
equal manager states with equal random choices they return equal
(camera, data) pairs and equal successor states. -/
theorem c9_next_eval_identical {α Pix : Type} (s : MgrState α Pix) (r : Nat) :
    next_eval s r = next_eval_image s r := rfl

/-- C10. add_image is a no-op at the public interface: it leaves the
train dataset (and with it the camera collection), the train cache, and
both unseen-worklists unchanged. -/
theorem c10_add_image_noop {α Pix : Type} (s : MgrState α Pix)
    (img : Image Pix) (cam : Camera α) :
    add_image s img cam = s ∧
    (add_image s img cam).train_dataset = s.train_dataset ∧
    (add_image s img cam).cached_train = s.cached_train ∧
    (add_image s img cam).train_unseen_cameras = s.train_unseen_cameras ∧
    (add_image s img cam).eval_unseen_cameras = s.eval_unseen_cameras :=
  ⟨rfl, rfl, rfl, rfl, rfl⟩

/-- C1. The claim says fixed_indices_eval_dataloader returns as many
(camera, data) pairs as there are eval images, regardless of how many
next_eval calls were already made in the current sweep. The code sizes
the returned list by len(eval_unseen_cameras) instead of
len(eval_dataset): starting from the fresh two-image state s2, one
next_eval call (random choice 1) leads to s2_mid_sweep, where the
dataloader returns 1 pair although the eval cache and dataset both hold
2 images. -/
theorem c1_fixed_indices_dataloader_bug :
    ((next_eval s2 1).map fun st => st.next) = some s2_mid_sweep ∧
    s2_mid_sweep.cached_eval.length = 2 ∧
    s2_mid_sweep.eval_dataset.length = 2 ∧
    ((fixed_indices_eval_dataloader s2_mid_sweep).map List.length) = some 1 := by
  decide

/-- C2, counterexample. The claim says the cached mask equals the
original mask restricted to the valid-pixel rectangle and nothing else.
On the pinhole path the source additionally re-runs cv2.undistort on the
cropped mask (lines 191-199, with K = newK); at a concrete camera with
nonzero distortion and a cv2 semantics whose no-new-K undistort is not
the identity, the cached mask differs from the cropped original mask. -/
theorem c2_mask_crop_counterexample :
    ¬ ((rectify_frame cvN camC frameM).map (fun p => p.1.mask) =
       Except.ok (frameM.mask.map fun m =>
         cropRect m (pinhole_newK_roi cvN camC frameM.image).2)) := by
  decide

/-- C2, amended. For every pinhole frame, the cached depth equals
exactly the crop of the original depth to the valid-pixel rectangle,
while the cached mask equals the crop of the original mask to that same
rectangle followed by one further cv2.undistort pass using the new
camera matrix and the extended distortion vector. -/
theorem c2_pinhole_crop_amended {α κ μ Pix : Type} [Zero α] (cv : Cv2 α κ μ Pix)
    (camera : Camera α) (data : Frame Pix)
    (h : camera.camera_type = CamType.perspective) :
    (rectify_frame cv camera data).map (fun p => p.1.depth) =
      Except.ok (data.depth.map fun d =>
        cropRect d (pinhole_newK_roi cv camera data.image).2) ∧
    (rectify_frame cv camera data).map (fun p => p.1.mask) =
      Except.ok (data.mask.map fun m =>
        cv.undistortNoNewK (cropRect m (pinhole_newK_roi cv camera data.image).2)
          (pinhole_newK_roi cv camera data.image).1
          (extended_distortion camera.distortion_params)) := by
  constructor
  · simp only [rectify_frame, h, Except.map]
  · simp only [rectify_frame, h, Except.map, Option.map_map]
    rfl

/-- C2, witness for the amended theorem at the concrete pinhole camera
camC and the concrete frame frameM. -/
theorem c2_pinhole_crop_amended_witness :
    camC.camera_type = CamType.perspective ∧
    ((rectify_frame cvN camC frameM).map (fun p => p.1.depth) =
      Except.ok (frameM.depth.map fun d =>
        cropRect d (pinhole_newK_roi cvN camC frameM.image).2) ∧
    (rectify_frame cvN camC frameM).map (fun p => p.1.mask) =
      Except.ok (frameM.mask.map fun m =>
        cvN.undistortNoNewK (cropRect m (pinhole_newK_roi cvN camC frameM.image).2)
          (pinhole_newK_roi cvN camC frameM.image).1
          (extended_distortion camC.distortion_params))) :=
  ⟨rfl, c2_pinhole_crop_amended cvN camC frameM rfl⟩

/-- Unfolding lemma for run_train at zero steps. -/
theorem run_train_zero {α Pix : Type} (s : MgrState α Pix) :
    run_train s 0 = some ([], s, []) := rfl

/-- Unfolding lemma for run_train at a successor step count. -/
theorem run_train_succ {α Pix : Type} (s : MgrState α Pix) (n : Nat) :
    run_train s (n + 1) =
      (next_train s).bind fun st =>
        (run_train st.next n).map fun p => (st.idx :: p.1, p.2.1, st.refilled :: p.2.2) := rfl

/-- Unfolding lemma for run_eval on an empty choice list. -/
theorem run_eval_nil {α Pix : Type} (s : MgrState α Pix) :
    run_eval s [] = some ([], s) := rfl

/-- Unfolding lemma for run_eval on a nonempty choice list. -/
theorem run_eval_cons {α Pix : Type} (s : MgrState α Pix) (r : Nat) (rs : List Nat) :
    run_eval s (r :: rs) =
      (next_eval s r).bind fun st =>
        (run_eval st.next rs).map fun p => (st.idx :: p.1, p.2) := rfl

/-- Removing the element at a valid position and putting it back in
front is a permutation of the original list. -/
theorem cons_eraseIdx_perm {β : Type} :
    ∀ (l : List β) (r : Nat) (v : β), l.get? r = some v →
      List.Perm (v :: l.eraseIdx r) l := by
  intro l
  induction l with
  | nil => intro r v h; simp at h
  | cons a t ih =>
    intro r v h
    cases r with
    | zero =>
      have hv : a = v := Option.some.inj h
      subst hv
      exact List.Perm.refl _
    | succ r =>
      have h1 : t.get? r = some v := h
      exact (List.Perm.swap a v (t.eraseIdx r)).trans ((ih r v h1).cons a)

/-- Computation law for next_train at a state whose worklist is known to
be xs ++ [x], with in-range cache and dataset lookups. -/
theorem next_train_eq {α Pix : Type} (s : MgrState α Pix) (xs : List Nat) (x : Nat)
    (h : s.train_unseen_cameras = xs ++ [x])
    (hc : x < s.cached_train.length) (hd : x < s.train_dataset.length) :
    next_train s = some
      { idx := x,
        camera := { (s.train_dataset.get ⟨x, hd⟩).2 with metadata_cam_idx := some x },
        data := { s.cached_train.get ⟨x, hc⟩ with imageRes := Residency.device },
        next := { s with train_unseen_cameras :=
          if xs.isEmpty then List.range s.train_dataset.length else xs },
        refilled := xs.isEmpty } := by
  have h1 : s.train_unseen_cameras.getLast? = some x := by
    rw [h]; exact List.getLast?_concat _
  have h2 : s.train_unseen_cameras.dropLast = xs := by
    rw [h]; exact List.dropLast_concat
  have h3 : s.cached_train.get? x = some (s.cached_train.get ⟨x, hc⟩) := List.get?_eq_get hc
  have h4 : s.train_dataset.get? x = some (s.train_dataset.get ⟨x, hd⟩) := List.get?_eq_get hd
  simp only [next_train, h1, h2, h3, h4]

/-- Dissection of a successful next_eval call: the sampled index comes
from position r of the eval worklist and the successor state differs
from the input state only in the eval worklist, which is the removal or
(on exhaustion) the refilled full range. -/
theorem next_eval_some {α Pix : Type} (s : MgrState α Pix) (r : Nat) (st : EvalStep α Pix)
    (h : next_eval s r = some st) :
    s.eval_unseen_cameras.get? r = some st.idx ∧
    st.next = { s with eval_unseen_cameras :=
      if (s.eval_unseen_cameras.eraseIdx r).isEmpty then List.range s.eval_dataset.length
      else s.eval_unseen_cameras.eraseIdx r } := by
  unfold next_eval at h
  cases hg : s.eval_unseen_cameras.get? r with
  | none => rw [hg] at h; exact absurd h (by simp)
  | some image_idx =>
    rw [hg] at h
    simp only [] at h
    cases hc : s.cached_eval.get? image_idx with
    | none =>
      rw [hc] at h
      exact absurd h (by simp)
    | some d =>
      rw [hc] at h
      cases he : s.eval_dataset.get? image_idx with
      | none => rw [he] at h; exact absurd h (by simp)
      | some e =>
        rw [he] at h
        have hst := Option.some.inj h
        subst hst
        exact ⟨rfl, rfl⟩

/-- Draining lemma for the train scheduler: from a state whose worklist
is the nonempty list l (all entries in cache/dataset range), l.length
next_train calls return exactly l reversed, refill exactly once (at the
last call), and leave the worklist refilled with the ascending full
range. -/
theorem run_train_drain {α Pix : Type} (l : List Nat) : ∀ (s : MgrState α Pix),
    s.train_unseen_cameras = l → l ≠ [] →
    (∀ x ∈ l, x < s.cached_train.length ∧ x < s.train_dataset.length) →
    run_train s l.length =
      some (l.reverse, { s with train_unseen_cameras := List.range s.train_dataset.length },
            List.replicate (l.length - 1) false ++ [true]) := by
  induction l using List.reverseRecOn with
  | nil => intro s _ hne _; exact absurd rfl hne
  | append_singleton xs x ih =>
    intro s h _ hbound
    have hc : x < s.cached_train.length := (hbound x (by simp)).1
    have hd : x < s.train_dataset.length := (hbound x (by simp)).2
    have hstep := next_train_eq s xs x h hc hd
    by_cases hxs : xs = []
    · subst hxs
      rw [show ([] ++ [x] : List Nat).length = 0 + 1 from rfl, run_train_succ, hstep]
      simp only [Option.some_bind, run_train_zero, Option.map_some']
      simp
    · have hxe : xs.isEmpty = false := by
        cases xs with
        | nil => exact absurd rfl hxs
        | cons a t => rfl
      have hcond : ¬ (xs.isEmpty = true) := by simp [hxe]
      rw [if_neg hcond] at hstep
      rw [hxe] at hstep
      have hlen : (xs ++ [x]).length = xs.length + 1 := by simp
      rw [hlen, run_train_succ, hstep]
      have hnext := ih { s with train_unseen_cameras := xs } rfl hxs
        (fun y hy => hbound y (by simp [hy]))
      obtain ⟨k, hk⟩ : ∃ k, xs.length = k + 1 := by
        cases xs with
        | nil => exact absurd rfl hxs
        | cons a t => exact ⟨t.length, rfl⟩
      simp only [Option.some_bind]
      rw [hnext]
      simp [List.reverse_append, hk, List.replicate_succ]

/-- Sweep lemma for the eval scheduler: a successful run over exactly as
many (in-bounds) random choices as the worklist holds returns a
permutation of the worklist and ends in the state whose eval worklist
was refilled with the ascending full range; no other state component
changes. -/
theorem run_eval_sweep {α Pix : Type} (rs : List Nat) :
    ∀ (s : MgrState α Pix) (out : List Nat) (sf : MgrState α Pix),
    run_eval s rs = some (out, sf) → rs.length = s.eval_unseen_cameras.length → rs ≠ [] →
    List.Perm out s.eval_unseen_cameras ∧
    sf = { s with eval_unseen_cameras := List.range s.eval_dataset.length } := by
  induction rs with
  | nil => intro s out sf _ _ hne; exact absurd rfl hne
  | cons r rs ih =>
    intro s out sf hrun hlen _
    rw [run_eval_cons] at hrun
    cases hne : next_eval s r with
    | none => rw [hne] at hrun; exact absurd hrun (by simp)
    | some st =>
      rw [hne] at hrun
      simp only [Option.some_bind] at hrun
      cases hrec : run_eval st.next rs with
      | none => rw [hrec] at hrun; exact absurd hrun (by simp)
      | some p =>
        obtain ⟨out1, sf1⟩ := p
        rw [hrec] at hrun
        simp only [Option.map_some'] at hrun
        have hpair := Option.some.inj hrun
        have hout : st.idx :: out1 = out := congrArg Prod.fst hpair
        have hsf : sf1 = sf := congrArg Prod.snd hpair
        obtain ⟨hg, hnext⟩ := next_eval_some s r st hne
        obtain ⟨hrlt, -⟩ := List.get?_eq_some.mp hg
        have herase : (s.eval_unseen_cameras.eraseIdx r).length =
            s.eval_unseen_cameras.length - 1 := List.length_eraseIdx_of_lt hrlt
        have hlen1 : s.eval_unseen_cameras.length = rs.length + 1 := by
          rw [← hlen]; rfl
        by_cases hrest : (s.eval_unseen_cameras.eraseIdx r).isEmpty
        · have hrest1 : s.eval_unseen_cameras.eraseIdx r = [] := List.isEmpty_iff.mp hrest
          have hrs0 : rs.length = 0 := by
            rw [hrest1] at herase
            simp at herase
            omega
          have hrs : rs = [] := List.length_eq_zero.mp hrs0
          subst hrs
          rw [run_eval_nil] at hrec
          have hp := Option.some.inj hrec
          have hout1 : out1 = [] := (congrArg Prod.fst hp).symm
          have hsf1 : sf1 = st.next := (congrArg Prod.snd hp).symm
          subst hout1
          refine ⟨?_, ?_⟩
          · rw [← hout]
            have := cons_eraseIdx_perm s.eval_unseen_cameras r st.idx hg
            rwa [hrest1] at this
          · rw [← hsf, hsf1, hnext, if_pos hrest]
        · have hrest1 : s.eval_unseen_cameras.eraseIdx r ≠ [] := by
            intro hh
            rw [hh] at hrest
            exact hrest rfl
          have hnu : st.next.eval_unseen_cameras = s.eval_unseen_cameras.eraseIdx r := by
            rw [hnext, if_neg hrest]
          have hnd : st.next.eval_dataset = s.eval_dataset := by rw [hnext]
          have hlen2 : rs.length = st.next.eval_unseen_cameras.length := by
            rw [hnu, herase]
            omega
          have hrsne : rs ≠ [] := by
            intro hh
            subst hh
            rw [hnu] at hlen2
            simp only [List.length_nil] at hlen2
            exact hrest1 (List.eq_nil_of_length_eq_zero hlen2.symm)
          obtain ⟨hperm, hsf2⟩ := ih st.next out1 sf1 hrec hlen2 hrsne
          refine ⟨?_, ?_⟩
          · rw [← hout]
            rw [hnu] at hperm
            exact (hperm.cons st.idx).trans
              (cons_eraseIdx_perm s.eval_unseen_cameras r st.idx hg)
          · rw [← hsf, hsf2, hnext]

/-- C3. For every train dataset size N at least 1, starting from a
freshly filled train worklist, N next_train calls return exactly the
reverse of range N (hence the N indices are a permutation of [0, N)),
the worklist empties and is refilled exactly once, at the N-th call,
with the ascending full range (the per-call refill flags are N-1 falses
followed by one true, and the final worklist is range N), and the
(N+1)-th call again returns a valid index (N-1). -/
theorem c3_train_sweep {α Pix : Type} (s : MgrState α Pix) (N : Nat)
    (hN : 1 ≤ N) (hfresh : s.train_unseen_cameras = List.range N)
    (hdata : s.train_dataset.length = N) (hcache : s.cached_train.length = N) :
    run_train s N = some ((List.range N).reverse,
        { s with train_unseen_cameras := List.range N },
        List.replicate (N - 1) false ++ [true]) ∧
    List.Perm (List.range N).reverse (List.range N) ∧
    ((run_train s N).bind fun p => (next_train p.2.1).map fun st => st.idx) =
      some (N - 1) := by
  have hne : List.range N ≠ [] := by
    intro hh
    rw [List.range_eq_nil] at hh
    omega
  have hl := run_train_drain (List.range N) s hfresh hne
    (fun x hx => by
      refine ⟨?_, ?_⟩
      · rw [hcache]; exact List.mem_range.mp hx
      · rw [hdata]; exact List.mem_range.mp hx)
  rw [List.length_range, hdata] at hl
  refine ⟨hl, List.reverse_perm _, ?_⟩
  rw [hl]
  simp only [Option.some_bind]
  have hrange : List.range N = List.range (N - 1) ++ [N - 1] := by
    conv_lhs => rw [show N = (N - 1) + 1 by omega]
    exact List.range_succ (N - 1)
  have hc1 : N - 1 < ({ s with train_unseen_cameras := List.range N } :
      MgrState α Pix).cached_train.length := by
    show N - 1 < s.cached_train.length
    rw [hcache]
    omega
  have hd1 : N - 1 < ({ s with train_unseen_cameras := List.range N } :
      MgrState α Pix).train_dataset.length := by
    show N - 1 < s.train_dataset.length
    rw [hdata]
    omega
  have hstep := next_train_eq { s with train_unseen_cameras := List.range N }
    (List.range (N - 1)) (N - 1) (by show List.range N = _; exact hrange) hc1 hd1
  rw [hstep]
  simp

/-- C3, witness at the concrete two-image state s2. -/
theorem c3_train_sweep_witness :
    (1 ≤ 2 ∧ s2.train_unseen_cameras = List.range 2 ∧
     s2.train_dataset.length = 2 ∧ s2.cached_train.length = 2) ∧
    (run_train s2 2 = some ((List.range 2).reverse,
        { s2 with train_unseen_cameras := List.range 2 },
        List.replicate (2 - 1) false ++ [true]) ∧
     List.Perm (List.range 2).reverse (List.range 2) ∧
     ((run_train s2 2).bind fun p => (next_train p.2.1).map fun st => st.idx) =
       some (2 - 1)) :=
  ⟨⟨by decide, by decide, by decide, by decide⟩,
   c3_train_sweep s2 2 (by decide) (by decide) (by decide) (by decide)⟩

/-- C4. For every eval dataset size N at least 1 and every sequence of N
random choices under which the run succeeds (i.e. every choice is within
the current worklist bounds), one sweep of N next_eval calls starting
from a freshly filled worklist returns a permutation of [0, N) — each
index exactly once, whatever the random order — and leaves the worklist
refilled with the full range. -/
theorem c4_eval_sweep {α Pix : Type} (s : MgrState α Pix) (N : Nat)
    (rs out : List Nat) (sf : MgrState α Pix)
    (hN : 1 ≤ N) (hfresh : s.eval_unseen_cameras = List.range N)
    (hlen : s.eval_dataset.length = N) (hrs : rs.length = N)
    (hrun : run_eval s rs = some (out, sf)) :
    List.Perm out (List.range N) ∧ sf.eval_unseen_cameras = List.range N := by
  have h1 : rs.length = s.eval_unseen_cameras.length := by
    rw [hfresh, List.length_range, hrs]
  have h2 : rs ≠ [] := by
    intro hh
    subst hh
    simp at hrs
    omega
  obtain ⟨hp, hsf⟩ := run_eval_sweep rs s out sf hrun h1 h2
  refine ⟨hfresh ▸ hp, ?_⟩
  rw [hsf]
  show List.range s.eval_dataset.length = List.range N
  rw [hlen]

/-- C4, witness at the concrete two-image state s2 with the choice
sequence [1, 0]. -/
theorem c4_eval_sweep_witness :
    (1 ≤ 2 ∧ s2.eval_unseen_cameras = List.range 2 ∧ s2.eval_dataset.length = 2 ∧
     ([1, 0] : List Nat).length = 2 ∧ run_eval s2 [1, 0] = some ([1, 0], s2)) ∧
    (List.Perm [1, 0] (List.range 2) ∧ s2.eval_unseen_cameras = List.range 2) :=
  ⟨⟨by decide, by decide, by decide, by decide, by decide⟩,
   c4_eval_sweep s2 2 [1, 0] [1, 0] s2 (by decide) (by decide) (by decide)
     (by decide) (by decide)⟩

/-- C6. For every manager whose train cache and train dataset (and with
it the camera collection) both have length N, process_image leaves them
with length N+1 each, resets the train worklist to the full new range
[0, N+1), and the immediately following next_train call returns the new
index N — so the new index is yielded at least once (in fact first)
before any index can repeat. -/
theorem c6_process_image {α Pix : Type} (s : MgrState α Pix)
    (img : Image Pix) (cam : Camera α)
    (halign : s.cached_train.length = s.train_dataset.length) :
    (process_image s img cam).cached_train.length = s.train_dataset.length + 1 ∧
    (process_image s img cam).train_dataset.length = s.train_dataset.length + 1 ∧
    (process_image s img cam).train_unseen_cameras =
      List.range (s.train_dataset.length + 1) ∧
    ((next_train (process_image s img cam)).map fun st => st.idx) =
      some s.train_dataset.length := by
  refine ⟨?_, ?_, ?_, ?_⟩
  · simp [process_image, dataset_add_image, halign]
  · simp [process_image, dataset_add_image]
  · simp [process_image, dataset_add_image]
  · have h1 : (process_image s img cam).train_unseen_cameras =
        List.range s.train_dataset.length ++ [s.train_dataset.length] := by
      simp [process_image, dataset_add_image, List.range_succ]
    have hc : s.train_dataset.length < (process_image s img cam).cached_train.length := by
      simp [process_image, dataset_add_image, halign]
    have hd : s.train_dataset.length < (process_image s img cam).train_dataset.length := by
      simp [process_image, dataset_add_image]
    rw [next_train_eq (process_image s img cam) (List.range s.train_dataset.length)
      s.train_dataset.length h1 hc hd]
    simp

/-- C6, witness at the concrete aligned state s2. -/
theorem c6_process_image_witness :
    (s2.cached_train.length = s2.train_dataset.length) ∧
    ((process_image s2 [[5]] cam0).cached_train.length = s2.train_dataset.length + 1 ∧
     (process_image s2 [[5]] cam0).train_dataset.length = s2.train_dataset.length + 1 ∧
     (process_image s2 [[5]] cam0).train_unseen_cameras =
       List.range (s2.train_dataset.length + 1) ∧
     ((next_train (process_image s2 [[5]] cam0)).map fun st => st.idx) =
       some s2.train_dataset.length) :=
  ⟨by decide, c6_process_image s2 [[5]] cam0 (by decide)⟩

/-- Residency of frames after placement with a non-gpu policy: image and
(when present) mask are pinned in host memory. -/
theorem place_split_pinned {Pix : Type} (opt : CachePolicy)
    (hopt : opt ≠ CachePolicy.gpu) (fs : List (Frame Pix)) :
    ∀ f ∈ place_split opt fs, f.imageRes = Residency.pinnedHost ∧
      (f.mask.isSome = true → f.maskRes = Residency.pinnedHost) := by
  intro f hf
  obtain ⟨g, _, hg⟩ := List.mem_map.mp hf
  subst hg
  unfold place_frame
  rw [if_neg hopt]
  refine ⟨rfl, fun hm => ?_⟩
  simp only []
  rw [if_pos hm]

/-- Residency of frames after placement with the gpu policy: image and
(when present) mask live on the accelerator. -/
theorem place_split_device {Pix : Type} (fs : List (Frame Pix)) :
    ∀ f ∈ place_split CachePolicy.gpu fs, f.imageRes = Residency.device ∧
      (f.mask.isSome = true → f.maskRes = Residency.device) := by
  intro f hf
  obtain ⟨g, _, hg⟩ := List.mem_map.mp hf
  subst hg
  unfold place_frame
  rw [if_pos rfl]
  refine ⟨rfl, fun hm => ?_⟩
  simp only []
  rw [if_pos hm]

/-- C7. If the train split has more than 500 frames and the configured
policy is "gpu", the policy is silently changed to "cpu" before the
cache is built — setup_caches builds with "cpu" — so every successfully
cached train image (and mask) ends up pinned in host memory rather than
on the accelerator; with 500 or fewer frames the "gpu" policy is kept
and the cached train images land on the accelerator. -/
theorem c7_cache_policy_downgrade {α κ μ Pix : Type} [Zero α] (cv : Cv2 α κ μ Pix)
    (train_entries eval_entries : List (Frame Pix × Camera α)) :
    (500 < train_entries.length →
      effective_policy train_entries.length CachePolicy.gpu = CachePolicy.cpu ∧
      setup_caches cv CachePolicy.gpu train_entries eval_entries =
        cache_images cv CachePolicy.cpu train_entries eval_entries ∧
      (∀ tc ec, setup_caches cv CachePolicy.gpu train_entries eval_entries =
          Except.ok (tc, ec) →
        ∀ f ∈ tc.1, f.imageRes = Residency.pinnedHost ∧
          (f.mask.isSome = true → f.maskRes = Residency.pinnedHost))) ∧
    (train_entries.length ≤ 500 →
      effective_policy train_entries.length CachePolicy.gpu = CachePolicy.gpu ∧
      (∀ tc ec, setup_caches cv CachePolicy.gpu train_entries eval_entries =
          Except.ok (tc, ec) →
        ∀ f ∈ tc.1, f.imageRes = Residency.device ∧
          (f.mask.isSome = true → f.maskRes = Residency.device))) := by
  constructor
  · intro hbig
    have hp : effective_policy train_entries.length CachePolicy.gpu = CachePolicy.cpu := by
      unfold effective_policy
      rw [if_pos ⟨hbig, rfl⟩]
    have hsetup : setup_caches cv CachePolicy.gpu train_entries eval_entries =
        cache_images cv CachePolicy.cpu train_entries eval_entries := by
      unfold setup_caches
      rw [hp]
    refine ⟨hp, hsetup, ?_⟩
    intro tc ec hok f hf
    rw [hsetup] at hok
    unfold cache_images at hok
    cases htr : cache_split cv train_entries with
    | error e => rw [htr] at hok; exact Except.noConfusion hok
    | ok tr =>
      rw [htr] at hok
      cases hev : cache_split cv eval_entries with
      | error e => rw [hev] at hok; exact Except.noConfusion hok
      | ok ev =>
        rw [hev] at hok
        have hpair := Except.ok.inj hok
        have htc : tc = (place_split CachePolicy.cpu (tr.map Prod.fst), tr.map Prod.snd) :=
          (congrArg Prod.fst hpair).symm
        rw [htc] at hf
        exact place_split_pinned CachePolicy.cpu (by decide) (tr.map Prod.fst) f hf
  · intro hsmall
    have hp : effective_policy train_entries.length CachePolicy.gpu = CachePolicy.gpu := by
      unfold effective_policy
      rw [if_neg]
      intro hcontra
      omega
    refine ⟨hp, ?_⟩
    intro tc ec hok f hf
    unfold setup_caches at hok
    rw [hp] at hok
    unfold cache_images at hok
    cases htr : cache_split cv train_entries with
    | error e => rw [htr] at hok; exact Except.noConfusion hok
    | ok tr =>
      rw [htr] at hok
      cases hev : cache_split cv eval_entries with
      | error e => rw [hev] at hok; exact Except.noConfusion hok
      | ok ev =>
        rw [hev] at hok
        have hpair := Except.ok.inj hok
        have htc : tc = (place_split CachePolicy.gpu (tr.map Prod.fst), tr.map Prod.snd) :=
          (congrArg Prod.fst hpair).symm
        rw [htc] at hf
        exact place_split_device (tr.map Prod.fst) f hf

/-- C7, witness: a 501-frame train split with policy "gpu" satisfies the
downgrade hypothesis, and the theorem yields the "cpu" override together
with the pinned-host residency guarantee for the built cache. -/
theorem c7_cache_policy_downgrade_witness :
    500 < trainBig.length ∧
    (effective_policy trainBig.length CachePolicy.gpu = CachePolicy.cpu ∧
     setup_caches cvN CachePolicy.gpu trainBig [] =
       cache_images cvN CachePolicy.cpu trainBig [] ∧
     (∀ tc ec, setup_caches cvN CachePolicy.gpu trainBig [] = Except.ok (tc, ec) →
       ∀ f ∈ tc.1, f.imageRes = Residency.pinnedHost ∧
         (f.mask.isSome = true → f.maskRes = Residency.pinnedHost))) :=
  have hlen : 500 < trainBig.length := by
    unfold trainBig
    rw [List.length_replicate]
    omega
  ⟨hlen, (c7_cache_policy_downgrade cvN trainBig []).1 hlen⟩

/-- Rectification of a camera whose projection type is neither pinhole
nor fisheye raises the unsupported-camera-model error. -/
theorem rectify_frame_unsupported {α κ μ Pix : Type} [Zero α] (cv : Cv2 α κ μ Pix)
    (camera : Camera α) (data : Frame Pix)
    (h1 : camera.camera_type ≠ CamType.perspective)
    (h2 : camera.camera_type ≠ CamType.fisheye) :
    rectify_frame cv camera data = Except.error unsupported_msg := by
  cases hct : camera.camera_type with
  | perspective => exact absurd hct h1
  | fisheye => exact absurd hct h2
  | equirectangular => unfold rectify_frame; rw [hct]

/-- Rectification either succeeds or fails with exactly the
unsupported-camera-model message. -/
theorem rectify_frame_ok_or_msg {α κ μ Pix : Type} [Zero α] (cv : Cv2 α κ μ Pix)
    (camera : Camera α) (data : Frame Pix) :
    (∃ v, rectify_frame cv camera data = Except.ok v) ∨
    rectify_frame cv camera data = Except.error unsupported_msg := by
  cases hct : camera.camera_type with
  | perspective => exact Or.inl ⟨_, by unfold rectify_frame; rw [hct]⟩
  | fisheye => exact Or.inl ⟨_, by unfold rectify_frame; rw [hct]⟩
  | equirectangular => exact Or.inr (by unfold rectify_frame; rw [hct])

/-- Every cache_split failure carries the unsupported-camera-model
message: it is the only error the per-frame loop can raise. -/
theorem cache_split_error_msg {α κ μ Pix : Type} [Zero α] (cv : Cv2 α κ μ Pix) :
    ∀ (entries : List (Frame Pix × Camera α)) (e : String),
      cache_split cv entries = Except.error e → e = unsupported_msg := by
  intro entries
  induction entries with
  | nil => intro e h; exact absurd h (by simp [cache_split])
  | cons a t ih =>
    intro e h
    unfold cache_split at h
    rcases rectify_frame_ok_or_msg cv a.2 a.1 with ⟨v, hv⟩ | hv
    · rw [hv] at h
      cases ht : cache_split cv t with
      | error e1 =>
        rw [ht] at h
        have he : e1 = e := Except.error.inj h
        rw [← he]
        exact ih e1 ht
      | ok rs =>
        rw [ht] at h
        exact Except.noConfusion h
    · rw [hv] at h
      exact (Except.error.inj h).symm

/-- A split containing a camera with an unsupported projection type
makes the whole cache_split pass fail with the unsupported-camera-model
error. -/
theorem cache_split_unsupported {α κ μ Pix : Type} [Zero α] (cv : Cv2 α κ μ Pix) :
    ∀ (entries : List (Frame Pix × Camera α)),
      (∃ e ∈ entries, e.2.camera_type ≠ CamType.perspective ∧
        e.2.camera_type ≠ CamType.fisheye) →
      cache_split cv entries = Except.error unsupported_msg := by
  intro entries
  induction entries with
  | nil => intro h; obtain ⟨e, he, -⟩ := h; exact absurd he (by simp)
  | cons a t ih =>
    intro h
    obtain ⟨e, he, hbad1, hbad2⟩ := h
    rcases List.mem_cons.mp he with rfl | het
    · unfold cache_split
      rw [rectify_frame_unsupported cv e.2 e.1 hbad1 hbad2]
    · rcases rectify_frame_ok_or_msg cv a.2 a.1 with ⟨v, hv⟩ | hv
      · unfold cache_split
        rw [hv, ih ⟨e, het, hbad1, hbad2⟩]
      · unfold cache_split
        rw [hv]

/-- C8. For every split collection containing at least one camera whose
projection type is neither pinhole nor fisheye, the cache build fails
with the unsupported-camera-model error and no cache is returned to the
caller: cache_images evaluates to the error, which by its type excludes
any partial result. -/
theorem c8_unsupported_camera_abort {α κ μ Pix : Type} [Zero α] (cv : Cv2 α κ μ Pix)
    (opt : CachePolicy) (train_entries eval_entries : List (Frame Pix × Camera α))
    (h : ∃ e ∈ train_entries ++ eval_entries,
      e.2.camera_type ≠ CamType.perspective ∧ e.2.camera_type ≠ CamType.fisheye) :
    cache_images cv opt train_entries eval_entries = Except.error unsupported_msg := by
  obtain ⟨e, he, hbad1, hbad2⟩ := h
  rcases List.mem_append.mp he with htr | hev
  · unfold cache_images
    rw [cache_split_unsupported cv train_entries ⟨e, htr, hbad1, hbad2⟩]
  · cases htr : cache_split cv train_entries with
    | error e1 =>
      unfold cache_images
      rw [htr, cache_split_error_msg cv train_entries e1 htr]
    | ok tr =>
      unfold cache_images
      rw [htr, cache_split_unsupported cv eval_entries ⟨e, hev, hbad1, hbad2⟩]

/-- C8, witness: a one-frame split whose camera is equirectangular makes
the build fail with the unsupported-camera-model error. -/
theorem c8_unsupported_camera_abort_witness :
    (camBad.camera_type ≠ CamType.perspective ∧
     camBad.camera_type ≠ CamType.fisheye) ∧
    cache_images cvN CachePolicy.cpu [(frame0, camBad)] [] =
      Except.error unsupported_msg :=
  ⟨⟨by decide, by decide⟩,
   c8_unsupported_camera_abort cvN CachePolicy.cpu [(frame0, camBad)] []
     ⟨(frame0, camBad), by simp, by decide, by decide⟩⟩

end L3GOS
